import Mathlib

/-!
Verification development for the SRLDC report-extraction pipeline
(srldc/management/commands/srldc_project.py and srldc/models.py).

Cells extracted by the PDF-table reader are modelled as `Option String`
(`none` models a pandas NaN / Python None value).  Python string builtins
used by the code (`str.strip`, `str.lower`, `str.upper`, `str.replace`,
regex whitespace collapsing) are embedded as executable functions on the
character list of a `String`.  The Python `float(...)` parser is an
external library call and is abstracted as a parameter
`parse : String -> Option A`; every code path settled here decides the
result before `float` is ever consulted.
-/

/-- A single extracted table cell: `none` models pandas NaN / Python None. -/
abbrev Cell := Option String

/-- Model of pandas `astype(str)` on a cell: NaN renders as the string nan. -/
def cellToStr : Cell → String
  | none => "nan"
  | some s => s

/-- Drop leading and trailing whitespace characters of a character list,
the character-level model of Python `str.strip()`. -/
def stripChars (l : List Char) : List Char :=
  ((l.dropWhile Char.isWhitespace).reverse.dropWhile Char.isWhitespace).reverse

/-- Model of Python `str.strip()`. -/
def pyStrip (s : String) : String := ⟨stripChars s.data⟩

/-- Model of Python `str.lower()` (ASCII data in this pipeline). -/
def pyLower (s : String) : String := ⟨s.data.map Char.toLower⟩

/-- Model of Python `str.upper()` (ASCII data in this pipeline). -/
def pyUpper (s : String) : String := ⟨s.data.map Char.toUpper⟩

/-- Remove every comma, the model of `value.replace(",", "")`. -/
def stripCommas (s : String) : String := ⟨s.data.filter (· ≠ ',')⟩

/-- Worker for collapsing whitespace runs: the flag records a pending
whitespace run that must be emitted as one space. -/
def collapseGo : List Char → Bool → List Char
  | [], pend => if pend then [' '] else []
  | c :: rest, pend =>
    if c.isWhitespace then collapseGo rest true
    else if pend then ' ' :: c :: collapseGo rest false
    else c :: collapseGo rest false

/-- Model of the regex replacement of one-or-more whitespace by a single
space, as in `.str.replace(r"\s+", " ", regex=True)`. -/
def collapseWs (s : String) : String := ⟨collapseGo s.data false⟩

/-- Per-cell normalization used by the marker matcher: stringify, strip,
collapse whitespace runs (source lines 55-56). -/
def normCell (c : Cell) : String := collapseWs (pyStrip (cellToStr c))

/-- The null tokens recognised by `_safe_float` (source line 189). -/
def NULL_TOKENS : List String := ["n/a", "-", "null", "nan", "na", ""]

/-- Model of `Command._safe_float` (source lines 174-194).  `parse`
abstracts Python `float(...)`, returning `none` where `float` raises. -/
def safeFloat {α : Type} (parse : String → Option α) : Cell → Option α
  | none => none
  | some s =>
    let v := pyStrip s
    if v.data.contains ':' then none
    else
      let v2 := stripCommas v
      if v2 == "" || NULL_TOKENS.contains (pyLower v2) then none
      else parse v2

/-- Model of `Command._safe_string` (source lines 196-203). -/
def safeString : Cell → Option String
  | none => none
  | some s =>
    let v := pyStrip s
    if pyLower v == "nan" || v == "" then none
    else some v

theorem mem_dropWhile_of_mem {p : Char → Bool} {c : Char} (hc : p c = false) :
    ∀ {l : List Char}, c ∈ l → c ∈ l.dropWhile p := by
  intro l h
  induction l with
  | nil => cases h
  | cons a t ih =>
    by_cases hpa : p a = true
    · rw [List.dropWhile_cons_of_pos hpa]
      rcases List.mem_cons.mp h with h1 | h2
      · subst h1; rw [hc] at hpa; cases hpa
      · exact ih h2
    · rw [List.dropWhile_cons_of_neg hpa]
      exact h

theorem mem_stripChars_of_mem {c : Char} (hc : c.isWhitespace = false)
    {l : List Char} (h : c ∈ l) : c ∈ stripChars l := by
  unfold stripChars
  rw [List.mem_reverse]
  apply mem_dropWhile_of_mem hc
  rw [List.mem_reverse]
  exact mem_dropWhile_of_mem hc h

theorem contains_pyStrip_colon {s : String}
    (h : s.data.contains ':' = true) : (pyStrip s).data.contains ':' = true := by
  have hmem : (':' : Char) ∈ s.data := by
    simpa [List.contains, List.elem_iff] using h
  have : (':' : Char) ∈ stripChars s.data :=
    mem_stripChars_of_mem (by decide) hmem
  simpa [pyStrip, List.contains, List.elem_iff] using this

/-- A pandas DataFrame as it appears in this pipeline: a list of column
labels (integer labels are rendered as decimal strings) and the data rows.
A row shorter than the label list reads as NaN in the missing columns. -/
structure Frame where
  cols : List String
  rows : List (List Cell)
deriving DecidableEq, Repr

/-- Look a cell up by column label, the model of pandas label indexing and
of `Series.get` (absent label yields None). -/
def rowGet : List String → List Cell → String → Cell
  | [], _, _ => none
  | c :: cs, r, name => if c = name then r.getD 0 none else rowGet cs (r.drop 1) name

/-- Test whether a row contains a cell whose normalized string satisfies
the marker pattern (source line 58 tests each cell separately). -/
def markerRowMatch (p : String → Bool) (row : List Cell) : Bool :=
  row.any (fun c => p (normCell c))

/-- Index of the first row satisfying a row predicate. -/
def findFirstIdx (p : List Cell → Bool) : List (List Cell) → Option Nat
  | [] => none
  | r :: rest => if p r then some 0 else (findFirstIdx p rest).map (· + 1)

/-- Locate the start-marker row (source lines 54-60). -/
def findStartIdx (p : String → Bool) (rows : List (List Cell)) : Option Nat :=
  findFirstIdx (markerRowMatch p) rows

/-- Locate the end-marker row strictly after the start row
(source lines 67-72). -/
def findEndIdx (p : String → Bool) (rows : List (List Cell)) (s : Nat) : Option Nat :=
  (findFirstIdx (markerRowMatch p) (rows.drop (s + 1))).map (fun j => s + 1 + j)

/-- Slice the candidate region (title row included) between the start
marker and the optional end marker (source lines 74-78). -/
def rawRegion (rows : List (List Cell)) (startP : String → Bool)
    (endP : Option (String → Bool)) : Option (List (List Cell)) :=
  match findStartIdx startP rows with
  | none => none
  | some s =>
    match endP.bind (fun p => findEndIdx p rows s) with
    | some e => some ((rows.drop s).take (e - s))
    | none => some (rows.drop s)

/-- Reconcile a resolved schema against the actual column count
(source lines 151-157): pad with synthetic names when the schema is
shorter, truncate it when longer. -/
def reconcileColumns (names : List String) (w : Nat) : List String :=
  if names.length < w then
    names ++ ((List.range w).drop names.length).map (fun i => "Unnamed_Col_" ++ toString i)
  else names.take w

/-- The fixed 13-name schema for Table 2(A) (source lines 93-107). -/
def cols2A : List String :=
  ["STATE", "THERMAL", "HYDRO", "GAS/DIESEL/NAPTHA", "WIND", "SOLAR", "OTHERS",
   "Net SCH (Net Mu)", "Drawal (Net Mu)", "UI (Net Mu)", "Availability (Net MU)",
   "Demand Met (Net MU)", "Shortage # (Net MU)"]

/-- The fixed 15-name schema for Table 2(C) (source lines 110-126). -/
def cols2C : List String :=
  ["State", "Maximum Demand Met of the day", "Time", "Shortage during maximum demand",
   "Requirement at maximum demand", "Maximum requirement of the day", "Time.1",
   "Shortage during maximum requirement", "Demand Met at maximum Requirement",
   "Min Demand Met", "Time.2", "ACE_MAX", "Time.3", "Time.4", "ACE_MIN"]

/-- Replace newline characters by spaces, as in `.str.replace(chr(10), " ")`. -/
def replaceNl (s : String) : String := ⟨s.data.map (fun c => if c = '\n' then ' ' else c)⟩

/-- Single-row header names (source line 87): stringify and strip row 1. -/
def headerRow1 (w : Nat) (rawSub : List (List Cell)) : List String :=
  (List.range w).map (fun j => pyStrip (cellToStr ((rawSub.getD 1 []).getD j none)))

/-- Generic two-row header combination for unrecognized tables
(source lines 130-145). -/
def genericCombine (w : Nat) (rawSub : List (List Cell)) : List String :=
  (List.range w).map (fun j =>
    let t := pyStrip (replaceNl (cellToStr ((rawSub.getD 1 []).getD j none)))
    let b := pyStrip (replaceNl (cellToStr ((rawSub.getD 2 []).getD j none)))
    if t == "" && b == "" then "Unnamed_" ++ toString j
    else if b == "" then t
    else if t == "" then b
    else if !(t.data.isPrefixOf b.data) then t ++ " " ++ b
    else b)

/-- Indices of the first occurrence of each column name, the model of
dropping duplicated column labels (source line 161). -/
def dedupIdx : List String → List String → Nat → List Nat
  | [], _, _ => []
  | c :: rest, seen, i =>
    if seen.contains c then dedupIdx rest seen (i + 1)
    else i :: dedupIdx rest (c :: seen) (i + 1)

/-- Collapse a maximal whitespace run containing a carriage return to one
space; the pending reversed run is flushed at each non-whitespace char. -/
def crGo : List Char → List Char → List Char
  | pending, [] => if pending.contains '\r' then [' '] else pending.reverse
  | pending, c :: rest =>
    if c.isWhitespace then crGo (c :: pending) rest
    else (if pending.contains '\r' then [' '] else pending.reverse) ++ c :: crGo [] rest

/-- Model of `.str.replace(regex of ws-run containing CR, " ")` used on
column names (source line 163). -/
def collapseCR (s : String) : String := ⟨crGo [] s.data⟩

/-- Column-name cleanup after assignment (source lines 162-163). -/
def cleanName (s : String) : String := pyStrip (collapseCR (pyStrip s))

/-- A row all of whose first `n` cells are NaN. -/
def rowAllNa (n : Nat) (r : List Cell) : Bool :=
  (List.range n).all (fun j => (r.getD j none).isNone)

/-- Model of `dropna(axis=0, how="all")` (source line 165). -/
def dropNaRows (f : Frame) : Frame :=
  ⟨f.cols, f.rows.filter (fun r => !(rowAllNa f.cols.length r))⟩

/-- Model of `dropna(axis=1, how="all")` (source lines 166, 168, 171). -/
def dropNaColsF (f : Frame) : Frame :=
  let kept := (List.range f.cols.length).filter
    (fun j => !(f.rows.all (fun r => (r.getD j none).isNone)))
  ⟨kept.map (fun j => f.cols.getD j ""), f.rows.map (fun r => kept.map (fun j => r.getD j none))⟩

/-- Model of `Command.extract_subtable_by_markers` (source lines 30-171).
Marker regexes are abstracted as predicates on the normalized cell
string; `name` plays the role of `debug_table_name`. -/
def extractSubtable (df : Frame) (startP : String → Bool)
    (endP : Option (String → Bool)) (hrc : Nat) (name : String) :
    Option (Frame × Option (List String)) :=
  match rawRegion df.rows startP endP with
  | none => none
  | some rawSub =>
    let w := df.cols.length
    let dataStart := 1 + hrc
    if 0 < hrc ∧ dataStart ≤ rawSub.length then
      let newCols : Option (List String) :=
        if hrc = 1 then some (headerRow1 w rawSub)
        else if hrc = 2 then
          some (if name = "Table 2(A)" then cols2A
                else if name = "Table 2(C)" then cols2C
                else genericCombine w rawSub)
        else none
      match newCols with
      | some nc =>
        let ncr := reconcileColumns nc w
        let data := rawSub.drop dataStart
        let kept := dedupIdx ncr [] 0
        let f1 : Frame := ⟨kept.map (fun j => cleanName (ncr.getD j "")),
                           data.map (fun r => kept.map (fun j => r.getD j none))⟩
        some (dropNaColsF (dropNaRows f1), some ncr)
      | none => some (dropNaColsF ⟨df.cols, rawSub.drop dataStart⟩, none)
    else
      some (dropNaColsF ⟨df.cols, rawSub.drop 1⟩, none)

/-- The allow-list of identifiers for Table 2(A) (source lines 21-23). -/
def SOUTH_INDIAN_STATES : List String :=
  ["ANDHRA PRADESH", "KARNATAKA", "KERALA", "PONDICHERRY", "TAMILNADU", "TELANGANA", "REGION"]

/-- The allow-list of identifiers for Table 2(C) (source lines 25-27). -/
def SOUTH_INDIAN_STATES_2C : List String :=
  ["AP", "KAR", "KER", "PONDY", "TN", "TG", "REGION"]

/-- The canonical-to-field mapping for Table 2(A) (source lines 251-265). -/
def columnMapping2A : List (String × String) :=
  [("STATE", "state"), ("THERMAL", "thermal"), ("HYDRO", "hydro"),
   ("GAS/DIESEL/NAPTHA", "gas_naptha_diesel"), ("SOLAR", "solar"), ("WIND", "wind"),
   ("OTHERS", "others"), ("Net SCH (Net Mu)", "net_sch"), ("Drawal (Net Mu)", "drawal"),
   ("UI (Net Mu)", "ui"), ("Availability (Net MU)", "availability"),
   ("Demand Met (Net MU)", "demand_met"), ("Shortage # (Net MU)", "shortage")]

/-- The canonical-to-field mapping for Table 2(C) (source lines 340-356). -/
def columnMapping2C : List (String × String) :=
  [("State", "state"), ("Maximum Demand Met of the day", "max_demand_met_of_the_day"),
   ("Time", "time_max_demand_met"), ("Shortage during maximum demand", "shortage_during_max_demand"),
   ("Requirement at maximum demand", "requirement_at_max_demand"),
   ("Maximum requirement of the day", "max_requirement_of_the_day"),
   ("Time.1", "time_max_requirement"),
   ("Shortage during maximum requirement", "shortage_during_max_requirement"),
   ("Demand Met at maximum Requirement", "demand_met_at_max_requirement"),
   ("Min Demand Met", "min_demand_met"), ("Time.2", "time_min_demand_met"),
   ("ACE_MAX", "ace_max"), ("Time.3", "time_ace_max"), ("Time.4", "time_ace_min"),
   ("ACE_MIN", "ace_min")]

/-- The field list `list(column_mapping_2A.values())` (source line 282). -/
def modelFields2A : List String := columnMapping2A.map Prod.snd

/-- The field list `list(column_mapping_2C.values())` (source line 370). -/
def modelFields2C : List String := columnMapping2C.map Prod.snd

/-- Model of `DataFrame.rename(columns=...)` restricted to present keys
(source lines 269, 358). -/
def renameCols (m : List (String × String)) (f : Frame) : Frame :=
  ⟨f.cols.map (fun c => ((m.lookup c).getD c)), f.rows⟩

/-- The exact allow-list row filter (source lines 274-276, 362-364): the
stringified, uppercased identifier cell must be a member of `states`. -/
def filterStates (f : Frame) (states : List String) : Frame :=
  ⟨f.cols, f.rows.filter (fun r => states.contains (pyUpper (cellToStr (rowGet f.cols r "state"))))⟩

/-- Model of selecting the mapped columns present in the frame
(source lines 283, 371). -/
def projectCols (fields : List String) (f : Frame) : Frame :=
  let k := fields.filter (fun c => f.cols.contains c)
  ⟨k, f.rows.map (fun r => k.map (fun c => rowGet f.cols r c))⟩

/-- Model of `dropna(subset=[c])` (source lines 286, 374): drops rows whose
cell in column `c` is NaN, and raises a KeyError when the column is
absent from the frame. -/
def dropnaSubset (c : String) (f : Frame) : Except String Frame :=
  if f.cols.contains c then
    .ok ⟨f.cols, f.rows.filter (fun r => (rowGet f.cols r c).isSome)⟩
  else .error ("KeyError: " ++ c)

/-- Model of the Table 2(A) classification stage (source lines 267-286):
rename, allow-list filtering (skipped with a warning when the state
column is missing), projection, and the dropna on the state column.
The first component collects the emitted warnings. -/
def classify2A (f : Frame) : List String × Except String Frame :=
  let renamed := renameCols columnMapping2A f
  let filtered := if renamed.cols.contains "state" then filterStates renamed SOUTH_INDIAN_STATES
                  else renamed
  let warns := if renamed.cols.contains "state" then ([] : List String)
               else ["Skipping row filtering"]
  (warns, dropnaSubset "state" (projectCols modelFields2A filtered))

/-- Model of the Table 2(C) classification stage (source lines 358-374). -/
def classify2C (f : Frame) : List String × Except String Frame :=
  let renamed := renameCols columnMapping2C f
  let filtered := if renamed.cols.contains "state" then filterStates renamed SOUTH_INDIAN_STATES_2C
                  else renamed
  let warns := if renamed.cols.contains "state" then ([] : List String)
               else ["Skipping row filtering"]
  (warns, dropnaSubset "state" (projectCols modelFields2C filtered))

/-- Model of the Report Assembler (source lines 232-417): extract each of
the two tables with two header rows, classify, and merge the surviving
sections into the combined export structure.  An exception in the 2(A)
stage aborts the run before 2(C) is processed, as in the source. -/
def assemble (p2A e2A p2C e2C : String → Bool) (df : Frame) :
    Except String (List (String × Frame)) :=
  let sec2A : Except String (List (String × Frame)) :=
    match extractSubtable df p2A (some e2A) 2 "Table 2(A)" with
    | none => .ok []
    | some (sub, _) =>
      match (classify2A sub).2 with
      | .ok fin => .ok [("table_2A", fin)]
      | .error e => .error e
  match sec2A with
  | .error e => .error e
  | .ok part1 =>
    match extractSubtable df p2C (some e2C) 2 "Table 2(C)" with
    | none => .ok part1
    | some (sub, _) =>
      match (classify2C sub).2 with
      | .ok fin => .ok (part1 ++ [("table_2C", fin)])
      | .error e => .error e

/-- The defaults dictionary passed to `Table2AData.objects.update_or_create`
(source lines 296-310), one optional numeric field per model column. -/
structure T2ADefaults (α : Type) where
  thermal : Option α
  hydro : Option α
  gas_naptha_diesel : Option α
  solar : Option α
  wind : Option α
  others : Option α
  total : Option α
  net_sch : Option α
  drawal : Option α
  ui : Option α
  availability : Option α
  demand_met : Option α
  shortage : Option α
deriving DecidableEq, Repr

/-- Build the update-or-create defaults for one Table 2(A) row
(source lines 296-310): each field is `_safe_float(row_data.get(field))`. -/
def buildDefaults2A {α : Type} (parse : String → Option α)
    (cols : List String) (row : List Cell) : T2ADefaults α :=
  { thermal := safeFloat parse (rowGet cols row "thermal")
    hydro := safeFloat parse (rowGet cols row "hydro")
    gas_naptha_diesel := safeFloat parse (rowGet cols row "gas_naptha_diesel")
    solar := safeFloat parse (rowGet cols row "solar")
    wind := safeFloat parse (rowGet cols row "wind")
    others := safeFloat parse (rowGet cols row "others")
    total := safeFloat parse (rowGet cols row "total")
    net_sch := safeFloat parse (rowGet cols row "net_sch")
    drawal := safeFloat parse (rowGet cols row "drawal")
    ui := safeFloat parse (rowGet cols row "ui")
    availability := safeFloat parse (rowGet cols row "availability")
    demand_met := safeFloat parse (rowGet cols row "demand_met")
    shortage := safeFloat parse (rowGet cols row "shortage") }

/-- The upsert key: (report_date, state), the `unique_together` pair of
`Table2AData.Meta` (models.py lines 28-31). -/
abbrev UpsertKey := String × Option String

/-- Model of Django `update_or_create` against a store whose rows carry a
key and the stored defaults: update every row matching the key in place,
or append a fresh row when none matches. -/
def updateOrCreate {D : Type} (store : List (UpsertKey × D)) (k : UpsertKey) (d : D) :
    List (UpsertKey × D) :=
  if store.any (fun e => e.1 = k) then
    store.map (fun e => if e.1 = k then (k, d) else e)
  else store ++ [(k, d)]

/-- One pipeline run over the store: upsert every extracted row in order
(source lines 291-311). -/
def runUpserts {D : Type} (store : List (UpsertKey × D)) (batch : List (UpsertKey × D)) :
    List (UpsertKey × D) :=
  batch.foldl (fun st e => updateOrCreate st e.1 e.2) store

/-- The keys currently present in a store. -/
def storeKeys {D : Type} (store : List (UpsertKey × D)) : List UpsertKey :=
  store.map Prod.fst

/-- Substring containment test: does `s` contain `pat` as a contiguous
substring. -/
def strContainsSub (s pat : String) : Bool :=
  s.data.tails.any (fun t => pat.data.isPrefixOf t)

/-- Modelled from the spec: the substring-containment re-filter that claim
C1 asserts (an allow-list identifier contained in the normalized cell);
no such code exists in the repository. -/
def specSubstringFilter (f : Frame) (states : List String) : Frame :=
  ⟨f.cols, f.rows.filter (fun r =>
    states.any (fun st => strContainsSub (pyUpper (cellToStr (rowGet f.cols r "state"))) st))⟩

/-- Modelled from the spec: exact filtering with the claimed fallback to
substring containment when the exact pass yields zero rows on a non-empty
input. -/
def specFallbackFilter (f : Frame) (states : List String) : Frame :=
  let exact := filterStates f states
  if exact.rows.isEmpty && !(f.rows.isEmpty) then specSubstringFilter f states
  else exact

/-- C1 counterexample: a frame with the single identifier ANDHRA PRADESHX
is non-empty, exact filtering yields zero rows, and the classifier
discards the row for good, whereas the fallback the claim asserts would
retain it by substring containment. -/
theorem c1_counterexample :
    (classify2A ⟨["STATE"], [[some "ANDHRA PRADESHX"]]⟩).2
      = .ok ⟨["state"], ([] : List (List Cell))⟩ ∧
    filterStates ⟨["state"], [[some "ANDHRA PRADESHX"]]⟩ SOUTH_INDIAN_STATES
      = ⟨["state"], []⟩ ∧
    specFallbackFilter ⟨["state"], [[some "ANDHRA PRADESHX"]]⟩ SOUTH_INDIAN_STATES
      = ⟨["state"], [[some "ANDHRA PRADESHX"]]⟩ := by
  refine ⟨rfl, by decide, by decide⟩

/-- C1 (amended): the Row Classifier filters rows solely by exact
membership of the uppercased stringified identifier cell in the
allow-list; when no row matches exactly, every row is discarded with no
substring re-evaluation. -/
theorem c1_exact_only (f : Frame)
    (h : ∀ r ∈ f.rows,
      SOUTH_INDIAN_STATES.contains (pyUpper (cellToStr (rowGet f.cols r "state"))) = false) :
    filterStates f SOUTH_INDIAN_STATES = ⟨f.cols, []⟩ := by
  unfold filterStates
  congr 1
  rw [List.filter_eq_nil_iff]
  intro r hr
  have := h r hr
  simpa using this

/-- C1 witness: the exact-only filter empties the concrete batch whose one
identifier matches no allow-list entry exactly. -/
theorem c1_exact_only_witness :
    filterStates ⟨["state"], [[some "ANDHRA PRADESHX"]]⟩ SOUTH_INDIAN_STATES
      = ⟨["state"], []⟩ :=
  c1_exact_only ⟨["state"], [[some "ANDHRA PRADESHX"]]⟩ (by decide)

/-- C2 counterexample: the cell andhra pradesh with a trailing space is
only uppercased (never trimmed) by the filter, fails exact membership,
and the row is dropped rather than retained. -/
theorem c2_counterexample :
    filterStates ⟨["state"], [[some "andhra pradesh "]]⟩ SOUTH_INDIAN_STATES
      = ⟨["state"], []⟩ ∧
    ¬ filterStates ⟨["state"], [[some "andhra pradesh "]]⟩ SOUTH_INDIAN_STATES
      = ⟨["state"], [[some "andhra pradesh "]]⟩ := by decide

/-- C2 (amended): the filter normalization is uppercasing only, with no
trimming or whitespace collapsing: the cell andhra pradesh without the
trailing space matches ANDHRA PRADESH and is retained, while the same
cell with a trailing space uppercases to a non-member and is dropped. -/
theorem c2_uppercase_only :
    filterStates ⟨["state"], [[some "andhra pradesh"]]⟩ SOUTH_INDIAN_STATES
      = ⟨["state"], [[some "andhra pradesh"]]⟩ ∧
    filterStates ⟨["state"], [[some "andhra pradesh "]]⟩ SOUTH_INDIAN_STATES
      = ⟨["state"], []⟩ ∧
    pyUpper "andhra pradesh " = "ANDHRA PRADESH " ∧
    SOUTH_INDIAN_STATES.contains "ANDHRA PRADESH " = false := by decide

/-- C3 counterexample: reconciling the fixed 13-name Table 2(A) schema
against 15 raw columns yields 15 names (padding), not a truncation to 13;
against 11 raw columns it yields the first 11 names with no synthetic
Unnamed_Col entries (truncation), not a padding by 2. -/
theorem c3_counterexample :
    (reconcileColumns cols2A 15).length = 15 ∧
    ¬ (reconcileColumns cols2A 15).length = 13 ∧
    (reconcileColumns cols2A 11).length = 11 ∧
    (reconcileColumns cols2A 11).all
      (fun nm => ("Unnamed_Col_".data.isPrefixOf nm.data) = false) := by decide

/-- C3 (amended): schema reconciliation matches the schema length to the
raw column count: the 13-name schema against 15 raw columns is padded
with the 2 synthetic names Unnamed_Col_13 and Unnamed_Col_14, and against
11 raw columns it is truncated to its first 11 names. -/
theorem c3_reconcile :
    cols2A.length = 13 ∧
    reconcileColumns cols2A 15 = cols2A ++ ["Unnamed_Col_13", "Unnamed_Col_14"] ∧
    reconcileColumns cols2A 11 = cols2A.take 11 := by decide

/-- C4 counterexample: the text normalizer returns the trimmed string,
not absent, on the null token n/a. -/
theorem c4_counterexample : safeString (some "n/a") = some "n/a" ∧
    ¬ safeString (some "n/a") = none := by decide

/-- C4 (amended): the numeric normalizer returns absent on every
case-insensitive null token and on empty-after-trim cells, but the text
normalizer returns absent only for the token nan (case-insensitively)
and for empty-after-trim cells; on n/a, hyphen, null and na it returns
the trimmed string itself. -/
theorem c4_null_tokens {α : Type} (parse : String → Option α) :
    safeFloat parse (none : Cell) = none ∧
    safeFloat parse (some "n/a") = none ∧
    safeFloat parse (some "N/A") = none ∧
    safeFloat parse (some "-") = none ∧
    safeFloat parse (some "null") = none ∧
    safeFloat parse (some "NULL") = none ∧
    safeFloat parse (some "nan") = none ∧
    safeFloat parse (some "na") = none ∧
    safeFloat parse (some "") = none ∧
    safeFloat parse (some "  ") = none ∧
    safeString (none : Cell) = none ∧
    safeString (some "nan") = none ∧
    safeString (some "NaN") = none ∧
    safeString (some "") = none ∧
    safeString (some "  ") = none ∧
    safeString (some "n/a") = some "n/a" ∧
    safeString (some "-") = some "-" ∧
    safeString (some "null") = some "null" ∧
    safeString (some "na") = some "na" :=
  ⟨rfl, rfl, rfl, rfl, rfl, rfl, rfl, rfl, rfl, rfl,
   rfl, rfl, rfl, rfl, rfl, rfl, rfl, rfl, rfl⟩

/-- C7: for every string cell whose text contains a colon character, the
numeric normalizer returns absent regardless of any surrounding digits;
being a total function, it never raises. -/
theorem c7_colon_absent {α : Type} (parse : String → Option α) (s : String)
    (h : s.data.contains ':' = true) : safeFloat parse (some s) = none := by
  have h2 := contains_pyStrip_colon h
  have h3 : (':' : Char) ∈ (pyStrip s).data := by simpa [List.contains, List.elem_iff] using h2
  simp [safeFloat, h3]

/-- C7 witness: the time string 12:30 contains a colon and normalizes to
absent, not 1230 or 12.3. -/
theorem c7_colon_absent_witness :
    "12:30".data.contains ':' = true ∧
    safeFloat (fun v => some v) (some "12:30") = none :=
  ⟨by decide, c7_colon_absent (fun v => some v) "12:30" (by decide)⟩

/-- A concrete grid for the unsupported header-row-count branch: a title
row matched by the marker and five non-empty data rows. -/
def c5Df : Frame :=
  ⟨["0"], [[some "T"], [some "a1"], [some "a2"], [some "a3"], [some "a4"], [some "a5"]]⟩

/-- C5 counterexample: with header_row_count 3 and the start marker on the
title row, the extractor returns the two rows from offset 4 of the sliced
region, not the five rows from offset 1 that the claim states. -/
theorem c5_counterexample :
    extractSubtable c5Df (fun s => s == "T") none 3 "X"
      = some (⟨["0"], [[some "a4"], [some "a5"]]⟩, none) ∧
    dropNaColsF ⟨c5Df.cols, c5Df.rows.drop 1⟩
      = ⟨["0"], [[some "a1"], [some "a2"], [some "a3"], [some "a4"], [some "a5"]]⟩ ∧
    ¬ extractSubtable c5Df (fun s => s == "T") none 3 "X"
      = some (⟨["0"], [[some "a1"], [some "a2"], [some "a3"], [some "a4"], [some "a5"]]⟩, none) := by
  decide

/-- C5 (amended): for every header_row_count outside 0, 1, 2, when the
start marker is found and the sliced region holds at least
1 + header_row_count rows, the extractor skips header assignment and
returns the raw data rows from offset 1 + header_row_count onward, with
only all-empty-column pruning applied and no column schema. -/
theorem c5_degraded (df : Frame) (startP : String → Bool)
    (endP : Option (String → Bool)) (name : String) (hrc : Nat)
    (rs : List (List Cell))
    (h1 : rawRegion df.rows startP endP = some rs)
    (h2 : 1 + hrc ≤ rs.length)
    (h3 : hrc ≠ 0) (h4 : hrc ≠ 1) (h5 : hrc ≠ 2) :
    extractSubtable df startP endP hrc name
      = some (dropNaColsF ⟨df.cols, rs.drop (1 + hrc)⟩, none) := by
  unfold extractSubtable
  rw [h1]
  simp only [if_pos (And.intro (Nat.pos_of_ne_zero h3) h2), if_neg h4, if_neg h5]

/-- C5 witness: the degraded branch evaluated on the concrete grid with
header_row_count 3. -/
theorem c5_degraded_witness :
    extractSubtable c5Df (fun s => s == "T") none 3 "X"
      = some (dropNaColsF ⟨c5Df.cols, c5Df.rows.drop (1 + 3)⟩, none) :=
  c5_degraded c5Df (fun s => s == "T") none "X" 3 c5Df.rows
    (by decide) (by decide) (by decide) (by decide) (by decide)

theorem findFirstIdx_eq_none {p : List Cell → Bool} {l : List (List Cell)}
    (h : ∀ r ∈ l, p r = false) : findFirstIdx p l = none := by
  induction l with
  | nil => rfl
  | cons r rest ih =>
    unfold findFirstIdx
    rw [if_neg (by simp [h r (List.mem_cons_self r rest)])]
    rw [ih (fun x hx => h x (List.mem_cons_of_mem r hx))]
    rfl

/-- C6: for every grid in which no cell of any row matches the start
marker of Table 2(A), extraction returns not-found (never raises, being
total); whenever the assembler completes, its output omits the table_2A
section, and the table_2C section is still present whenever the 2(C)
extraction succeeded. -/
theorem c6_notfound_omitted (df : Frame) (p2A e2A p2C e2C : String → Bool)
    (h : ∀ row ∈ df.rows, ∀ c ∈ row, p2A (normCell c) = false) :
    extractSubtable df p2A (some e2A) 2 "Table 2(A)" = none ∧
    ∀ out, assemble p2A e2A p2C e2C df = .ok out →
      out.lookup "table_2A" = none ∧
      ((extractSubtable df p2C (some e2C) 2 "Table 2(C)").isSome →
        (out.lookup "table_2C").isSome) := by
  have hfs : findStartIdx p2A df.rows = none := by
    apply findFirstIdx_eq_none
    intro r hr
    unfold markerRowMatch
    rw [List.any_eq_false]
    intro c hc
    simp [h r hr c hc]
  have hext : extractSubtable df p2A (some e2A) 2 "Table 2(A)" = none := by
    unfold extractSubtable rawRegion
    rw [hfs]
  refine ⟨hext, ?_⟩
  intro out hout
  rcases h2C : extractSubtable df p2C (some e2C) 2 "Table 2(C)" with _ | ⟨sub, hd⟩
  · simp only [assemble, hext, h2C, Except.ok.injEq] at hout
    subst hout
    exact ⟨rfl, fun hs => by simp at hs⟩
  · rcases hcl : (classify2C sub).2 with e | fin
    · simp only [assemble, hext, h2C, hcl] at hout
      cases hout
    · simp only [assemble, hext, h2C, hcl, Except.ok.injEq] at hout
      subst hout
      exact ⟨rfl, fun _ => rfl⟩

/-- A concrete grid that contains a Table 2(C) region and nothing that
matches the Table 2(A) marker. -/
def c6Df : Frame :=
  ⟨["0", "1"], [[some "2C TITLE", none], [some "h", some "h2"],
                [some "h3", some "h4"], [some "AP", some "100"]]⟩

/-- Marker predicate matching nothing, playing the absent 2(A) marker. -/
def c6P2A : String → Bool := fun s => s == "NOMATCH"

/-- Marker predicate matching the concrete 2(C) title cell. -/
def c6P2C : String → Bool := fun s => s == "2C TITLE"

/-- An end-marker predicate that matches nothing. -/
def c6POff : String → Bool := fun _ => false

/-- The combined export the assembler produces for the concrete grid. -/
def c6Out : List (String × Frame) :=
  [("table_2C", ⟨["state", "max_demand_met_of_the_day"], [[some "AP", some "100"]]⟩)]

/-- C6 witness: on the concrete grid the assembler completes, the table_2A
section is omitted while the table_2C section is present. -/
theorem c6_notfound_omitted_witness :
    assemble c6P2A c6POff c6P2C c6POff c6Df = .ok c6Out ∧
    c6Out.lookup "table_2A" = none ∧ (c6Out.lookup "table_2C").isSome := by
  have hmain := c6_notfound_omitted c6Df c6P2A c6POff c6P2C c6POff (by decide)
  have hassem : assemble c6P2A c6POff c6P2C c6POff c6Df = .ok c6Out := by rfl
  exact ⟨hassem, (hmain.2 c6Out hassem).1, (hmain.2 c6Out hassem).2 (by rfl)⟩

theorem dropnaSubset_error_of_not_mem (c : String) (f : Frame)
    (h : f.cols.contains c = false) :
    dropnaSubset c f = .error ("KeyError: " ++ c) := by
  unfold dropnaSubset
  rw [if_neg (fun hm => by rw [hm] at h; exact Bool.noConfusion h)]

/-- C9: whenever the Table 2(A) start marker is found but the renamed
sub-table has no state column, the classifier emits the row-filtering
warning and then fails with a KeyError from the dropna on the state
column, and the whole assembler run aborts with that error instead of
degrading to an unfiltered section. -/
theorem c9_missing_state_raises (df : Frame) (p2A e2A p2C e2C : String → Bool)
    (sub : Frame) (hd : Option (List String))
    (hex : extractSubtable df p2A (some e2A) 2 "Table 2(A)" = some (sub, hd))
    (hst : (renameCols columnMapping2A sub).cols.contains "state" = false) :
    (classify2A sub).1 = ["Skipping row filtering"] ∧
    (classify2A sub).2 = .error "KeyError: state" ∧
    assemble p2A e2A p2C e2C df = .error "KeyError: state" := by
  have hmem1 : ¬ "state" ∈ (renameCols columnMapping2A sub).cols := by
    intro hm
    have : (renameCols columnMapping2A sub).cols.contains "state" = true := by
      simpa [List.contains, List.elem_iff] using hm
    rw [hst] at this
    cases this
  have hmem2 : ¬ "state" ∈ (projectCols modelFields2A (renameCols columnMapping2A sub)).cols := by
    intro hm
    have hm2 : "state" ∈ modelFields2A.filter
        (fun c => (renameCols columnMapping2A sub).cols.contains c) := hm
    have := (List.mem_filter.mp hm2).2
    exact hmem1 (by simpa [List.contains, List.elem_iff] using this)
  have hprojb : (projectCols modelFields2A (renameCols columnMapping2A sub)).cols.contains "state" = false := by
    cases hb : (projectCols modelFields2A (renameCols columnMapping2A sub)).cols.contains "state" with
    | false => rfl
    | true => exact absurd (by simpa [List.contains, List.elem_iff] using hb) hmem2
  have hc2A : classify2A sub
      = (["Skipping row filtering"],
         dropnaSubset "state" (projectCols modelFields2A (renameCols columnMapping2A sub))) := by
    simp [classify2A, hmem1]
  have hcl2 : (classify2A sub).2 = .error "KeyError: state" := by
    rw [hc2A]
    rw [dropnaSubset_error_of_not_mem "state" _ hprojb]
    rfl
  refine ⟨by rw [hc2A], hcl2, ?_⟩
  simp only [assemble, hex, hcl2]

/-- A concrete grid whose Table 2(A) region is too short for the two
header rows, so the extracted sub-table keeps its integer column labels
and has no state column after renaming. -/
def c9Df : Frame := ⟨["0"], [[some "T2A"], [some "x"], [some "END2C"]]⟩

/-- C9 witness: on the concrete grid the classifier fails with the
KeyError and the assembler run aborts with it. -/
theorem c9_missing_state_raises_witness :
    (classify2A ⟨["0"], [[some "x"]]⟩).1 = ["Skipping row filtering"] ∧
    (classify2A ⟨["0"], [[some "x"]]⟩).2 = .error "KeyError: state" ∧
    assemble (fun s => s == "T2A") (fun s => s == "END2C")
      (fun s => s == "NOPE") (fun _ => false) c9Df = .error "KeyError: state" :=
  c9_missing_state_raises c9Df (fun s => s == "T2A") (fun s => s == "END2C")
    (fun s => s == "NOPE") (fun _ => false) ⟨["0"], [[some "x"]]⟩ none
    (by rfl) (by rfl)

theorem rowGet_eq_none_of_not_mem (name : String) :
    ∀ (cols : List String) (row : List Cell), ¬ name ∈ cols → rowGet cols row name = none := by
  intro cols
  induction cols with
  | nil => intro row h; rfl
  | cons c cs ih =>
    intro row h
    unfold rowGet
    rw [if_neg (fun hc => h (List.mem_cons.mpr (Or.inl hc.symm)))]
    exact ih _ (fun hm => h (List.mem_cons_of_mem c hm))

theorem dropnaSubset_ok_cols {c : String} {f fin : Frame}
    (h : dropnaSubset c f = .ok fin) : fin.cols = f.cols := by
  unfold dropnaSubset at h
  by_cases hc : f.cols.contains c = true
  · rw [if_pos hc] at h
    cases h
    rfl
  · rw [if_neg hc] at h
    cases h

/-- C10: for every input frame that the Table 2(A) classification stage
accepts, the resulting column set never holds a total column, so the
defaults built for the upsert always carry an absent total field. -/
theorem c10_total_absent {α : Type} (parse : String → Option α)
    (df fin : Frame) (row : List Cell)
    (h : (classify2A df).2 = .ok fin) :
    (buildDefaults2A parse fin.cols row).total = none := by
  have hcols := dropnaSubset_ok_cols
    (c := "state")
    (f := projectCols modelFields2A
      (if (renameCols columnMapping2A df).cols.contains "state"
       then filterStates (renameCols columnMapping2A df) SOUTH_INDIAN_STATES
       else renameCols columnMapping2A df)) h
  have hnot : ¬ "total" ∈ fin.cols := by
    rw [hcols]
    intro hm
    have := (List.mem_filter.mp hm).1
    exact absurd this (by decide)
  simp only [buildDefaults2A]
  rw [rowGet_eq_none_of_not_mem "total" fin.cols row hnot]
  rfl

/-- C10 witness: a one-row Karnataka frame passes classification and the
defaults built over the resulting columns carry an absent total. -/
theorem c10_total_absent_witness :
    (classify2A ⟨["STATE"], [[some "KARNATAKA"]]⟩).2
      = .ok ⟨["state"], [[some "KARNATAKA"]]⟩ ∧
    (buildDefaults2A (fun v => some v)
      (⟨["state"], [[some "KARNATAKA"]]⟩ : Frame).cols [some "KARNATAKA"]).total = none :=
  ⟨by rfl,
   c10_total_absent (fun v => some v) ⟨["STATE"], [[some "KARNATAKA"]]⟩
     ⟨["state"], [[some "KARNATAKA"]]⟩ [some "KARNATAKA"] (by rfl)⟩

theorem storeKeys_updateOrCreate_of_any {D : Type} (st : List (UpsertKey × D))
    (k : UpsertKey) (d : D) (h : st.any (fun e => e.1 = k) = true) :
    storeKeys (updateOrCreate st k d) = storeKeys st := by
  unfold updateOrCreate
  rw [if_pos h]
  unfold storeKeys
  rw [List.map_map]
  apply List.map_congr_left
  intro e he
  by_cases hek : e.1 = k
  · simp [hek]
  · simp [hek]

theorem mem_storeKeys_updateOrCreate_self {D : Type} (st : List (UpsertKey × D))
    (k : UpsertKey) (d : D) : k ∈ storeKeys (updateOrCreate st k d) := by
  by_cases h : st.any (fun e => e.1 = k) = true
  · rw [storeKeys_updateOrCreate_of_any st k d h]
    obtain ⟨e, he, hek⟩ := List.any_eq_true.mp h
    have hek2 : e.1 = k := of_decide_eq_true hek
    exact hek2 ▸ List.mem_map_of_mem Prod.fst he
  · unfold updateOrCreate
    rw [if_neg h]
    unfold storeKeys
    rw [List.map_append]
    exact List.mem_append_right _ (by simp)

theorem mem_storeKeys_updateOrCreate_of_mem {D : Type} (st : List (UpsertKey × D))
    (k : UpsertKey) (d : D) (k' : UpsertKey) (h : k' ∈ storeKeys st) :
    k' ∈ storeKeys (updateOrCreate st k d) := by
  by_cases hany : st.any (fun e => e.1 = k) = true
  · rw [storeKeys_updateOrCreate_of_any st k d hany]
    exact h
  · unfold updateOrCreate
    rw [if_neg hany]
    unfold storeKeys
    rw [List.map_append]
    exact List.mem_append_left _ h

theorem nodup_updateOrCreate {D : Type} (st : List (UpsertKey × D))
    (k : UpsertKey) (d : D) (h : (storeKeys st).Nodup) :
    (storeKeys (updateOrCreate st k d)).Nodup := by
  by_cases hany : st.any (fun e => e.1 = k) = true
  · rw [storeKeys_updateOrCreate_of_any st k d hany]
    exact h
  · unfold updateOrCreate
    rw [if_neg hany]
    unfold storeKeys
    rw [List.map_append]
    refine List.Nodup.append h (by simp) ?_
    intro a ha hb
    simp only [List.map_cons, List.map_nil, List.mem_singleton] at hb
    subst hb
    apply hany
    rw [List.any_eq_true]
    obtain ⟨e, he, hfe⟩ := List.mem_map.mp ha
    exact ⟨e, he, decide_eq_true hfe⟩

theorem nodup_runUpserts {D : Type} (st : List (UpsertKey × D))
    (batch : List (UpsertKey × D)) (h : (storeKeys st).Nodup) :
    (storeKeys (runUpserts st batch)).Nodup := by
  induction batch generalizing st with
  | nil => exact h
  | cons b t ih => exact ih _ (nodup_updateOrCreate st b.1 b.2 h)

theorem mem_storeKeys_runUpserts_of_mem {D : Type} (st : List (UpsertKey × D))
    (batch : List (UpsertKey × D)) (k' : UpsertKey) (h : k' ∈ storeKeys st) :
    k' ∈ storeKeys (runUpserts st batch) := by
  induction batch generalizing st with
  | nil => exact h
  | cons b t ih => exact ih _ (mem_storeKeys_updateOrCreate_of_mem st b.1 b.2 k' h)

theorem batch_keys_mem_runUpserts {D : Type} (st : List (UpsertKey × D))
    (batch : List (UpsertKey × D)) :
    ∀ e ∈ batch, e.1 ∈ storeKeys (runUpserts st batch) := by
  induction batch generalizing st with
  | nil => intro e he; cases he
  | cons b t ih =>
    intro e he
    rcases List.mem_cons.mp he with h1 | h2
    · subst h1
      exact mem_storeKeys_runUpserts_of_mem _ t _ (mem_storeKeys_updateOrCreate_self st e.1 e.2)
    · exact ih _ e h2

theorem storeKeys_runUpserts_of_subset {D : Type} (st : List (UpsertKey × D))
    (batch : List (UpsertKey × D)) (h : ∀ e ∈ batch, e.1 ∈ storeKeys st) :
    storeKeys (runUpserts st batch) = storeKeys st := by
  induction batch generalizing st with
  | nil => rfl
  | cons b t ih =>
    have hb := h b (List.mem_cons_self b t)
    have hany : st.any (fun e => e.1 = b.1) = true := by
      rw [List.any_eq_true]
      obtain ⟨e, he, hfe⟩ := List.mem_map.mp hb
      exact ⟨e, he, decide_eq_true hfe⟩
    have hkeys := storeKeys_updateOrCreate_of_any st b.1 b.2 hany
    have hstep : runUpserts st (b :: t) = runUpserts (updateOrCreate st b.1 b.2) t := rfl
    rw [hstep, ih _ (fun e he => by rw [hkeys]; exact h e (List.mem_cons_of_mem b he))]
    exact hkeys

theorem countKey_le_one_of_nodup {D : Type} (st : List (UpsertKey × D))
    (k : UpsertKey) (h : (storeKeys st).Nodup) :
    (st.filter (fun e => e.1 = k)).length ≤ 1 := by
  induction st with
  | nil => simp
  | cons e t ih =>
    have h2 : e.1 ∉ List.map Prod.fst t ∧ (storeKeys t).Nodup := by
      simpa [storeKeys] using h
    by_cases hek : e.1 = k
    · rw [List.filter_cons_of_pos (by simp [hek])]
      have hnilf : t.filter (fun x => x.1 = k) = [] := by
        rw [List.filter_eq_nil_iff]
        intro x hx hxk
        have hxk2 : x.1 = k := of_decide_eq_true hxk
        exact h2.1 (by rw [hek, ← hxk2]; exact List.mem_map_of_mem Prod.fst hx)
      simp [hnilf]
    · rw [List.filter_cons_of_neg (by simp [hek])]
      exact ih h2.2

/-- C8: running the batch of per-row upserts twice over a store whose keys
are unique leaves the key set unchanged after the second run (updates in
place, no inserts), keeps the keys unique, and leaves at most one stored
record per (report_date, state) key. -/
theorem c8_idempotent_upsert {D : Type} (st0 : List (UpsertKey × D))
    (batch : List (UpsertKey × D)) (k : UpsertKey)
    (h : (storeKeys st0).Nodup) :
    storeKeys (runUpserts (runUpserts st0 batch) batch) = storeKeys (runUpserts st0 batch) ∧
    (storeKeys (runUpserts (runUpserts st0 batch) batch)).Nodup ∧
    ((runUpserts (runUpserts st0 batch) batch).filter (fun e => e.1 = k)).length ≤ 1 := by
  have h1 : (storeKeys (runUpserts st0 batch)).Nodup := nodup_runUpserts st0 batch h
  have hsub : ∀ e ∈ batch, e.1 ∈ storeKeys (runUpserts st0 batch) :=
    batch_keys_mem_runUpserts st0 batch
  have heq := storeKeys_runUpserts_of_subset (runUpserts st0 batch) batch hsub
  have h2 : (storeKeys (runUpserts (runUpserts st0 batch) batch)).Nodup :=
    nodup_runUpserts (runUpserts st0 batch) batch h1
  exact ⟨heq, h2, countKey_le_one_of_nodup _ k h2⟩

/-- The concrete two-row batch used to witness the upsert behaviour. -/
def c8Batch : List (UpsertKey × Nat) :=
  [(("2025-01-01", some "KARNATAKA"), 1), (("2025-01-01", some "KERALA"), 2)]

/-- C8 witness: replaying the concrete batch on an initially empty store
keeps the key set fixed, unique, and at most one record per key. -/
theorem c8_idempotent_upsert_witness :
    storeKeys (runUpserts (runUpserts ([] : List (UpsertKey × Nat)) c8Batch) c8Batch)
      = storeKeys (runUpserts ([] : List (UpsertKey × Nat)) c8Batch) ∧
    (storeKeys (runUpserts (runUpserts ([] : List (UpsertKey × Nat)) c8Batch) c8Batch)).Nodup ∧
    ((runUpserts (runUpserts ([] : List (UpsertKey × Nat)) c8Batch) c8Batch).filter
      (fun e => e.1 = (("2025-01-01", some "KARNATAKA") : UpsertKey))).length ≤ 1 :=
  c8_idempotent_upsert [] c8Batch ("2025-01-01", some "KARNATAKA") (by decide)
